import Mathlib

/-!
taggo: two-pass decoding of discriminated unions.

A shallow embedding of `taggo.go` (`Discriminated.UnmarshalJSON`) and of the
shape family of `taggo_test.go` (`ShapeDiscriminator`, `square`, `circle`).

The embedding has two layers.

* The generic layer follows `taggo.go` line by line.  `encoding/json` and the
  discriminator's `GetType` are what the type parameters of the Go code leave
  open, so they are fields of an environment `Env`.
* The shape layer instantiates the environment as `taggo_test.go` does:
  `Discriminated[any, *ShapeDiscriminator]`.  `encoding/json` is not part of the
  repository; `unmarshalShapeDiscriminator` and `unmarshalAny` model what
  `json.Unmarshal` does for the two targets the wrapper hands to it, following
  the package documentation of `json.Unmarshal` and `decode.go`.
-/

namespace Taggo

/-! ## Generic layer: `taggo.go` -/

/-- The wrapper `Discriminated[ValueT, DiscriminatorT]`: one field, `Value`. -/
structure Discriminated (ValueT : Type) where
  Value : ValueT

/-- How a Go call ends: it returns its `error` result (`none` is `nil`), or it
panics and returns nothing. -/
inductive Completion (Err : Type) where
  | returned (err : Option Err)
  | panicked

/-- The calls `UnmarshalJSON` makes, in the order it makes them, each with the
document or receiver it was given. -/
inductive Call (Bytes DiscT ValueT : Type) where
  /-- The call `json.Unmarshal(bytes, &discriminator)`, with the content of the target. -/
  | unmarshalDiscriminator (bytes : Bytes) (target : DiscT)
  /-- The call `discriminator.GetType()`. -/
  | getType (receiver : DiscT)
  /-- The call `json.Unmarshal(bytes, &d.Value)`, with the content of the target. -/
  | unmarshalValue (bytes : Bytes) (target : ValueT)

/-- What the type parameters and the import of `taggo.go` leave open.
A codec pass `json.Unmarshal(bytes, &x)` is a function of the document and of
the content of `x`; it gives the new content of `x` and the returned error. -/
structure Env (Bytes DiscT ValueT Err : Type) where
  /-- The zero value declared by `var discriminator DiscriminatorT`. -/
  zero : DiscT
  /-- The codec with a `*DiscriminatorT` target. -/
  unmarshalD : Bytes → DiscT → DiscT × Option Err
  /-- The method `GetType` of the discriminator; `none` when the call panics. -/
  getType : DiscT → Option (ValueT × Option Err)
  /-- The codec with a `*ValueT` target. -/
  unmarshalV : Bytes → ValueT → ValueT × Option Err

/-- One execution of `UnmarshalJSON`: the wrapper afterwards, how the call
ended, and the calls it made. -/
structure Run (Bytes DiscT ValueT Err : Type) where
  d : Discriminated ValueT
  completion : Completion Err
  calls : List (Call Bytes DiscT ValueT)

/-- The method `(d *Discriminated[ValueT, DiscriminatorT]) UnmarshalJSON(bytes)`
of `taggo.go`, lines 15-27. -/
def UnmarshalJSON {Bytes DiscT ValueT Err : Type} (env : Env Bytes DiscT ValueT Err)
    (d : Discriminated ValueT) (bytes : Bytes) : Run Bytes DiscT ValueT Err :=
  -- var discriminator DiscriminatorT
  -- err := json.Unmarshal(bytes, &discriminator)
  match env.unmarshalD bytes env.zero with
  | (_, some err) =>
    -- if err != nil { return err }
    ⟨d, .returned (some err), [.unmarshalDiscriminator bytes env.zero]⟩
  | (discriminator, none) =>
    -- d.Value, err = discriminator.GetType()
    match env.getType discriminator with
    | none =>
      ⟨d, .panicked, [.unmarshalDiscriminator bytes env.zero, .getType discriminator]⟩
    | some (v, some err) =>
      -- if err != nil { return err }
      ⟨⟨v⟩, .returned (some err),
        [.unmarshalDiscriminator bytes env.zero, .getType discriminator]⟩
    | some (v, none) =>
      -- return json.Unmarshal(bytes, &d.Value)
      ⟨⟨(env.unmarshalV bytes v).1⟩, .returned (env.unmarshalV bytes v).2,
        [.unmarshalDiscriminator bytes env.zero, .getType discriminator,
          .unmarshalValue bytes v]⟩

/-- Whether a call is a codec pass (`json.Unmarshal`). -/
def Call.isCodecPass {Bytes DiscT ValueT : Type} : Call Bytes DiscT ValueT → Bool
  | .unmarshalDiscriminator _ _ => true
  | .getType _ => false
  | .unmarshalValue _ _ => true

/-- The number of times an execution handed the document to the codec. -/
def Run.codecPasses {Bytes DiscT ValueT Err : Type} (r : Run Bytes DiscT ValueT Err) : Nat :=
  (r.calls.filter Call.isCodecPass).length

/-! ## Shape layer: `taggo_test.go` and the codec it runs on -/

/-- A number literal of a JSON text: one written without fraction and exponent,
with its value, or any other one. -/
inductive NumLit where
  | int (n : Int)
  | nonInt
  deriving DecidableEq

/-- A JSON value as the codec reads it: object members are kept in document
order, duplicates included; strings are the decoded text. -/
inductive JSON where
  | null
  | bool (b : Bool)
  | num (n : NumLit)
  | str (s : String)
  | arr (items : List JSON)
  | obj (members : List (String × JSON))

/-- The bytes handed to `json.Unmarshal`: either they fail its validity scan
(`checkValid`), or they are the JSON text of one value. -/
inductive Document where
  | invalid
  | valid (v : JSON)

/-- The error values of the shape family. The payload of the codec's errors
other than the field name is not modelled. -/
inductive GoError where
  /-- A `*json.SyntaxError`. -/
  | SyntaxError
  /-- A `*json.UnmarshalTypeError` for the named JSON field ("" at top level). -/
  | UnmarshalTypeError (field : String)
  /-- The variable `UnknownDiscriminatorError` of `taggo_test.go`, line 20. -/
  | UnknownDiscriminatorError
  deriving DecidableEq

/-- The struct `circle` of `taggo_test.go`, line 12. -/
structure circle where
  Radius : Int
  deriving DecidableEq

/-- The struct `square` of `taggo_test.go`, line 16. -/
structure square where
  Side : Int
  deriving DecidableEq

/-- The struct `ShapeDiscriminator` of `taggo_test.go`, line 22. -/
structure ShapeDiscriminator where
  Shape : String
  deriving DecidableEq

/-- The values an `any` holds in the shape family: nothing, a non-nil `*square`
or `*circle` (with what it points to), or the value the codec builds by itself
for a JSON value when the target has no type of its own (`map[string]any`,
`[]any`, `float64`, `string`, `bool`), named by that JSON value. -/
inductive GoAny where
  | nil
  | ptrSquare (s : square)
  | ptrCircle (c : circle)
  | decoded (v : JSON)

/-- The dynamic type of the value an `any` holds. -/
inductive GoType where
  | none
  | ptrSquare
  | ptrCircle
  | untyped
  deriving DecidableEq

/-- The dynamic type of an `any` (what `reflect.TypeOf` tells apart). -/
def GoAny.dynamicType : GoAny → GoType
  | .nil => .none
  | .ptrSquare _ => .ptrSquare
  | .ptrCircle _ => .ptrCircle
  | .decoded _ => .untyped

/-- The width of Go's `int` (64-bit targets). -/
def intSize : Nat := 64

/-- Whether an integer is a value of Go's `int`. -/
def fitsInt (n : Int) : Prop := -(2 : Int) ^ (intSize - 1) ≤ n ∧ n < (2 : Int) ^ (intSize - 1)

instance (n : Int) : Decidable (fitsInt n) := by
  unfold fitsInt; exact inferInstance

/-- The rune folding of `encoding/json` (`foldName`): ASCII letters go to upper
case, and the two runes outside ASCII whose case orbit has an ASCII member go
to it (U+017F to S, U+212A to K). Every other rune folds to a rune outside
ASCII in Go and stays itself here; neither is an ASCII letter, so matching a
key against the ASCII field names of the shape family is the same. -/
def foldRune (r : Char) : Char :=
  if 97 ≤ r.toNat ∧ r.toNat ≤ 122 then Char.ofNat (r.toNat - 32)
  else if r.toNat = 0x17F then Char.ofNat 83
  else if r.toNat = 0x212A then Char.ofNat 75
  else r

/-- The folded form of a name. -/
def foldName (s : String) : String := ⟨s.data.map foldRune⟩

/-- The lookup of the struct field for an object key in `decodeState.object`:
an exact match of the JSON name, otherwise a match of the folded names. -/
def matchesField (key name : String) : Bool :=
  key == name || foldName key == foldName name

/-- The function `decodeState.saveError`: the first error is kept. -/
def saveError (saved : Option GoError) (err : GoError) : Option GoError :=
  match saved with
  | none => some err
  | some e => some e

/-- Storing a JSON value into a field of kind `string`: a string is stored,
`null` changes nothing, anything else is a type error. -/
def storeString (field : String) (v : JSON) (st : String × Option GoError) :
    String × Option GoError :=
  match v with
  | .null => st
  | .str s => (s, st.2)
  | _ => (st.1, saveError st.2 (.UnmarshalTypeError field))

/-- Storing a JSON value into a field of kind `int`: an integer literal in
range is stored, `null` changes nothing, anything else (a literal with a
fraction or exponent, one out of range, another kind of value) is a type error. -/
def storeInt (field : String) (v : JSON) (st : Int × Option GoError) :
    Int × Option GoError :=
  match v with
  | .null => st
  | .num (.int n) =>
    if fitsInt n then (n, st.2) else (st.1, saveError st.2 (.UnmarshalTypeError field))
  | _ => (st.1, saveError st.2 (.UnmarshalTypeError field))

/-- The loop of `decodeState.object` for a struct with the single field `name`:
the members are taken in document order, a member whose key matches the field
is stored into it, every other member is skipped. -/
def object {α : Type} (name : String)
    (store : String → JSON → α × Option GoError → α × Option GoError) :
    List (String × JSON) → α × Option GoError → α × Option GoError
  | [], st => st
  | (key, v) :: rest, st =>
    if matchesField key name then object name store rest (store name v st)
    else object name store rest st

/-- The call `json.Unmarshal(bytes, &discriminator)` for
`discriminator : *ShapeDiscriminator` (`none` is the nil pointer).
Invalid bytes are rejected before the target is touched; `null` sets the
pointer to nil; any other value is decoded into what the pointer points to,
which is allocated first when the pointer is nil; only an object fits a struct. -/
def unmarshalShapeDiscriminator (doc : Document) (target : Option ShapeDiscriminator) :
    Option ShapeDiscriminator × Option GoError :=
  match doc with
  | .invalid => (target, some .SyntaxError)
  | .valid .null => (none, none)
  | .valid (.obj members) =>
    let r := object "shape" storeString members ((target.getD ⟨""⟩).Shape, none)
    (some ⟨r.1⟩, r.2)
  | .valid _ => (some (target.getD ⟨""⟩), some (.UnmarshalTypeError ""))

/-- The method `(sd *ShapeDiscriminator) GetType()` of `taggo_test.go`, lines
27-35. Reading `sd.Shape` through a nil receiver panics. -/
def GetType (sd : Option ShapeDiscriminator) : Option (GoAny × Option GoError) :=
  match sd with
  | none => none
  | some sd =>
    -- switch sd.Shape
    if sd.Shape = "square" then some (.ptrSquare ⟨0⟩, none)
    else if sd.Shape = "circle" then some (.ptrCircle ⟨0⟩, none)
    else some (.nil, some .UnknownDiscriminatorError)

/-- The call `json.Unmarshal(bytes, &d.Value)` for `d.Value : any`.
Invalid bytes are rejected before the target is touched; `null` sets the
interface to nil; when the interface holds a non-nil pointer, any other value
is decoded into what it points to; otherwise the codec stores a value of its
own making. -/
def unmarshalAny (doc : Document) (target : GoAny) : GoAny × Option GoError :=
  match doc with
  | .invalid => (target, some .SyntaxError)
  | .valid .null => (.nil, none)
  | .valid (.obj members) =>
    match target with
    | .ptrSquare s =>
      let r := object "side" storeInt members (s.Side, none)
      (.ptrSquare ⟨r.1⟩, r.2)
    | .ptrCircle c =>
      let r := object "radius" storeInt members (c.Radius, none)
      (.ptrCircle ⟨r.1⟩, r.2)
    | _ => (.decoded (.obj members), none)
  | .valid v =>
    match target with
    | .ptrSquare s => (.ptrSquare s, some (.UnmarshalTypeError ""))
    | .ptrCircle c => (.ptrCircle c, some (.UnmarshalTypeError ""))
    | _ => (.decoded v, none)

/-- The instantiation `Discriminated[any, *ShapeDiscriminator]` of
`taggo_test.go`, line 56. -/
def shapeEnv : Env Document (Option ShapeDiscriminator) GoAny GoError where
  zero := none
  unmarshalD := unmarshalShapeDiscriminator
  getType := GetType
  unmarshalV := unmarshalAny

/-- The wrapper `var shape ShapeUnion` before any decode: `Value` is nil. -/
def freshShape : Discriminated GoAny := ⟨.nil⟩

/-- Decoding a document into a `ShapeUnion`. -/
def decodeShape (d : Discriminated GoAny) (doc : Document) :
    Run Document (Option ShapeDiscriminator) GoAny GoError :=
  UnmarshalJSON shapeEnv d doc

/-- The method `GetType` of a discriminator of another family with the fields
of `ShapeDiscriminator`: `func (sd *NilDiscriminator) GetType() (any, error)`
with the body `return nil, nil`. It does not read its receiver. -/
def GetTypeNil (_sd : Option ShapeDiscriminator) : Option (GoAny × Option GoError) :=
  some (.nil, none)

/-- The instantiation `Discriminated[any, *NilDiscriminator]`: the codec of the
shape family with a discriminator that resolves to a nil `any`. -/
def nilEnv : Env Document (Option ShapeDiscriminator) GoAny GoError where
  zero := none
  unmarshalD := unmarshalShapeDiscriminator
  getType := GetTypeNil
  unmarshalV := unmarshalAny

/-! ## Documents by their tag -/

/-- Whether an object member is one the codec takes for the tag field. -/
def isTagMember (m : String × JSON) : Bool := matchesField m.1 "shape"

/-- The document's tag is `T`: it has a member the codec takes for the tag
field, and every such member holds the string `T`. -/
def hasTag (T : String) (members : List (String × JSON)) : Prop :=
  (∃ m ∈ members, isTagMember m = true) ∧ ∀ m ∈ members, isTagMember m = true → m.2 = .str T

/-- Whether a key names a field of a variant other than the one of tag `T`:
`radius` for the tag `square`, `side` for the tag `circle`. -/
def belongsToOtherVariant (T key : String) : Bool :=
  if T = "square" then matchesField key "radius"
  else if T = "circle" then matchesField key "side"
  else false

/-- The members of a document without the fields of the variants other than
the one of tag `T`. -/
def removeOtherVariants (T : String) (members : List (String × JSON)) :
    List (String × JSON) :=
  members.filter (fun m => !belongsToOtherVariant T m.1)

/-- The tag member is absent or unknown: every member the codec takes for the
tag field holds a string other than `square` and `circle`. -/
def tagAbsentOrUnknown (members : List (String × JSON)) : Prop :=
  ∀ m ∈ members, isTagMember m = true → ∃ s, m.2 = .str s ∧ s ≠ "square" ∧ s ≠ "circle"

/-! ## The four paths of `UnmarshalJSON` -/

section Paths

variable {Bytes DiscT ValueT Err : Type} (env : Env Bytes DiscT ValueT Err)
  (d : Discriminated ValueT) (bytes : Bytes)

/-- The first codec pass returned an error: the call returns it at line 19. -/
theorem UnmarshalJSON_of_first_error {disc : DiscT} {e : Err}
    (h1 : env.unmarshalD bytes env.zero = (disc, some e)) :
    UnmarshalJSON env d bytes =
      ⟨d, .returned (some e), [.unmarshalDiscriminator bytes env.zero]⟩ := by
  simp [UnmarshalJSON, h1]

/-- The first codec pass succeeded and `GetType` panicked. -/
theorem UnmarshalJSON_of_panic {disc : DiscT}
    (h1 : env.unmarshalD bytes env.zero = (disc, none)) (h2 : env.getType disc = none) :
    UnmarshalJSON env d bytes =
      ⟨d, .panicked, [.unmarshalDiscriminator bytes env.zero, .getType disc]⟩ := by
  simp [UnmarshalJSON, h1, h2]

/-- The first codec pass succeeded and `GetType` returned an error: the call
returns it at line 24, after the assignment of line 22. -/
theorem UnmarshalJSON_of_resolve_error {disc : DiscT} {v : ValueT} {e : Err}
    (h1 : env.unmarshalD bytes env.zero = (disc, none))
    (h2 : env.getType disc = some (v, some e)) :
    UnmarshalJSON env d bytes =
      ⟨⟨v⟩, .returned (some e), [.unmarshalDiscriminator bytes env.zero, .getType disc]⟩ := by
  simp [UnmarshalJSON, h1, h2]

/-- The first codec pass and `GetType` succeeded: the call ends with the second
codec pass of line 26. -/
theorem UnmarshalJSON_of_resolved {disc : DiscT} {v : ValueT}
    (h1 : env.unmarshalD bytes env.zero = (disc, none))
    (h2 : env.getType disc = some (v, none)) :
    UnmarshalJSON env d bytes =
      ⟨⟨(env.unmarshalV bytes v).1⟩, .returned (env.unmarshalV bytes v).2,
        [.unmarshalDiscriminator bytes env.zero, .getType disc, .unmarshalValue bytes v]⟩ := by
  simp [UnmarshalJSON, h1, h2]

/-- A call that returns nil went through both codec passes. -/
theorem resolved_of_returned_nil
    (h : (UnmarshalJSON env d bytes).completion = .returned none) :
    ∃ disc v, env.unmarshalD bytes env.zero = (disc, none) ∧
      env.getType disc = some (v, none) ∧ (env.unmarshalV bytes v).2 = none := by
  rcases h1 : env.unmarshalD bytes env.zero with ⟨disc, _ | e1⟩
  · rcases h2 : env.getType disc with _ | ⟨v, _ | e2⟩
    · rw [UnmarshalJSON_of_panic env d bytes h1 h2] at h
      cases h
    · rw [UnmarshalJSON_of_resolved env d bytes h1 h2] at h
      exact ⟨disc, v, rfl, h2, by simpa using h⟩
    · rw [UnmarshalJSON_of_resolve_error env d bytes h1 h2] at h
      simp at h
  · rw [UnmarshalJSON_of_first_error env d bytes h1] at h
    simp at h

end Paths

/-! ## The codec on the shape family -/

theorem matchesField_eq_true_iff (key name : String) :
    matchesField key name = true ↔ foldName key = foldName name := by
  unfold matchesField
  constructor
  · intro h
    rcases Bool.or_eq_true _ _ |>.mp h with h | h
    · rw [beq_iff_eq.mp h]
    · exact beq_iff_eq.mp h
  · intro h
    simp [h]

/-- A key is matched to at most one of two fields with different folded names. -/
theorem matchesField_exclusive {key a b : String} (hab : foldName a ≠ foldName b)
    (h : matchesField key a = true) : matchesField key b = false := by
  rw [matchesField_eq_true_iff] at h
  rw [Bool.eq_false_iff]
  intro hb
  rw [matchesField_eq_true_iff] at hb
  exact hab (h.symm.trans hb)

/-- Members the field lookup does not match can be removed from an object
without changing what is decoded. -/
theorem object_filter_skipped {α : Type} (name : String)
    (store : String → JSON → α × Option GoError → α × Option GoError)
    (p : String → Bool) (hp : ∀ k, p k = true → matchesField k name = false)
    (members : List (String × JSON)) (st : α × Option GoError) :
    object name store (members.filter (fun m => !p m.1)) st = object name store members st := by
  induction members generalizing st with
  | nil => rfl
  | cons m rest ih =>
    obtain ⟨key, v⟩ := m
    by_cases hk : p key = true
    · have hm := hp key hk
      simp [List.filter, hk, object, hm, ih]
    · rw [Bool.not_eq_true] at hk
      simp only [List.filter, hk, Bool.not_false, object]
      split <;> exact ih _

/-- Tag members that all hold `T` leave a discriminator that already holds `T`
as it is. -/
theorem object_shape_keeps_tag (T : String) (members : List (String × JSON))
    (h : ∀ m ∈ members, isTagMember m = true → m.2 = .str T) :
    object "shape" storeString members (T, none) = (T, none) := by
  induction members with
  | nil => rfl
  | cons m rest ih =>
    obtain ⟨key, v⟩ := m
    have ih1 := ih (fun m hm => h m (List.mem_cons_of_mem _ hm))
    by_cases hk : matchesField key "shape" = true
    · have hv : v = .str T := h (key, v) (List.mem_cons_self _ _) hk
      simp [object, hk, hv, storeString, ih1]
    · rw [Bool.not_eq_true] at hk
      simp [object, hk, ih1]

/-- The first pass reads the tag of a document whose tag is `T`. -/
theorem object_shape_of_hasTag (T : String) (members : List (String × JSON))
    (h : hasTag T members) (s0 : String) :
    object "shape" storeString members (s0, none) = (T, none) := by
  obtain ⟨hex, hall⟩ := h
  induction members with
  | nil => obtain ⟨m, hm, _⟩ := hex; cases hm
  | cons m rest ih =>
    obtain ⟨key, v⟩ := m
    have hrest : ∀ m ∈ rest, isTagMember m = true → m.2 = .str T :=
      fun m hm => hall m (List.mem_cons_of_mem _ hm)
    by_cases hk : matchesField key "shape" = true
    · have hv : v = .str T := hall (key, v) (List.mem_cons_self _ _) hk
      simp [object, hk, hv, storeString, object_shape_keeps_tag T rest hrest]
    · have hex1 : ∃ m ∈ rest, isTagMember m = true := by
        obtain ⟨m, hm, ht⟩ := hex
        rcases List.mem_cons.mp hm with rfl | hm
        · exact absurd ht hk
        · exact ⟨m, hm, ht⟩
      rw [Bool.not_eq_true] at hk
      simp [object, hk, ih hex1 hrest]

/-- The first pass on a document whose tag is absent or unknown ends without an
error and with a tag that is neither `square` nor `circle`. -/
theorem object_shape_of_tagAbsentOrUnknown (members : List (String × JSON))
    (h : tagAbsentOrUnknown members) (s0 : String)
    (h0 : s0 ≠ "square" ∧ s0 ≠ "circle") :
    ∃ s, object "shape" storeString members (s0, none) = (s, none)
      ∧ s ≠ "square" ∧ s ≠ "circle" := by
  induction members generalizing s0 with
  | nil => exact ⟨s0, rfl, h0⟩
  | cons m rest ih =>
    obtain ⟨key, v⟩ := m
    have hrest : tagAbsentOrUnknown rest := fun m hm => h m (List.mem_cons_of_mem _ hm)
    by_cases hk : matchesField key "shape" = true
    · obtain ⟨s, hv, hs⟩ := h (key, v) (List.mem_cons_self _ _) hk
      simp only at hv
      subst hv
      simpa [object, hk, storeString] using ih hrest s hs
    · rw [Bool.not_eq_true] at hk
      simpa [object, hk] using ih hrest s0 h0

/-- What `GetType` returns without an error is a fresh `*square` or `*circle`. -/
theorem GetType_resolved {disc : Option ShapeDiscriminator} {v0 : GoAny}
    (h : GetType disc = some (v0, none)) :
    ∃ sd, disc = some sd ∧ (v0 = .ptrSquare ⟨0⟩ ∨ v0 = .ptrCircle ⟨0⟩) := by
  cases disc with
  | none => simp [GetType] at h
  | some sd =>
    refine ⟨sd, rfl, ?_⟩
    unfold GetType at h
    simp only at h
    split at h
    · left; simpa using h.symm
    · split at h
      · right; simpa using h.symm
      · simp at h

/-- A first pass that leaves a non-nil discriminator without an error has read
an object. -/
theorem object_of_first_pass {doc : Document} {sd : ShapeDiscriminator}
    (h : unmarshalShapeDiscriminator doc none = (some sd, none)) :
    ∃ members, doc = .valid (.obj members) := by
  cases doc with
  | invalid => simp [unmarshalShapeDiscriminator] at h
  | valid j =>
    cases j with
    | obj members => exact ⟨members, rfl⟩
    | _ => simp [unmarshalShapeDiscriminator] at h

/-- The second pass decodes an object into what the `any` points to and keeps
the pointer. -/
theorem unmarshalAny_object_dynamicType (members : List (String × JSON)) (v0 : GoAny)
    (h : v0 = .ptrSquare ⟨0⟩ ∨ v0 = .ptrCircle ⟨0⟩) :
    (unmarshalAny (.valid (.obj members)) v0).1.dynamicType = v0.dynamicType := by
  rcases h with rfl | rfl <;> rfl

/-- Every document but `null` makes `UnmarshalJSON` of the shape family return. -/
theorem decodeShape_returns (d : Discriminated GoAny) (doc : Document)
    (h : doc ≠ .valid .null) :
    ∃ err, (decodeShape d doc).completion = .returned err := by
  unfold decodeShape
  rcases h1 : shapeEnv.unmarshalD doc shapeEnv.zero with ⟨disc, _ | e1⟩
  · rcases h2 : shapeEnv.getType disc with _ | ⟨v, _ | e2⟩
    · exfalso
      have hd : disc = none := by
        cases disc with
        | none => rfl
        | some sd => simp [shapeEnv, GetType] at h2; split at h2 <;> [skip; split at h2] <;> simp at h2
      subst hd
      cases doc with
      | invalid => simp [shapeEnv, unmarshalShapeDiscriminator] at h1
      | valid j =>
        cases j with
        | null => exact h rfl
        | _ => simp [shapeEnv, unmarshalShapeDiscriminator] at h1
    · exact ⟨_, by rw [UnmarshalJSON_of_resolved shapeEnv d doc h1 h2]⟩
    · exact ⟨_, by rw [UnmarshalJSON_of_resolve_error shapeEnv d doc h1 h2]⟩
  · exact ⟨_, by rw [UnmarshalJSON_of_first_error shapeEnv d doc h1]⟩

/-! ## `UnmarshalJSON` for every codec and discriminator -/

/-- C5: for every document and every discriminator implementation,
`UnmarshalJSON` returns the non-nil error `e` exactly when the first of its
three steps that fails (first codec pass, `GetType`, second codec pass) fails
with `e`, so the error is handed on as it is; and no later step runs after a
failed one: after a failed first pass the only call made is that pass, after a
failed `GetType` the only calls made are the first pass and `GetType`, and
otherwise each of the three steps is made once. -/
theorem c5_errors_surfaced_verbatim {Bytes DiscT ValueT Err : Type}
    (env : Env Bytes DiscT ValueT Err) (d : Discriminated ValueT) (bytes : Bytes) :
    (∀ e : Err, (UnmarshalJSON env d bytes).completion = .returned (some e) ↔
      ((env.unmarshalD bytes env.zero).2 = some e
        ∨ ((env.unmarshalD bytes env.zero).2 = none
            ∧ ∃ v, env.getType (env.unmarshalD bytes env.zero).1 = some (v, some e))
        ∨ ((env.unmarshalD bytes env.zero).2 = none
            ∧ ∃ v, env.getType (env.unmarshalD bytes env.zero).1 = some (v, none)
              ∧ (env.unmarshalV bytes v).2 = some e)))
    ∧ ((env.unmarshalD bytes env.zero).2 ≠ none →
        (UnmarshalJSON env d bytes).calls = [.unmarshalDiscriminator bytes env.zero])
    ∧ ((env.unmarshalD bytes env.zero).2 = none →
        ∀ v e, env.getType (env.unmarshalD bytes env.zero).1 = some (v, some e) →
          (UnmarshalJSON env d bytes).calls =
            [.unmarshalDiscriminator bytes env.zero,
              .getType (env.unmarshalD bytes env.zero).1])
    ∧ ((env.unmarshalD bytes env.zero).2 = none →
        ∀ v, env.getType (env.unmarshalD bytes env.zero).1 = some (v, none) →
          (UnmarshalJSON env d bytes).calls =
            [.unmarshalDiscriminator bytes env.zero,
              .getType (env.unmarshalD bytes env.zero).1, .unmarshalValue bytes v]) := by
  rcases h1 : env.unmarshalD bytes env.zero with ⟨disc, _ | e1⟩
  · rcases h2 : env.getType disc with _ | ⟨v, _ | e2⟩
    · simp [UnmarshalJSON_of_panic env d bytes h1 h2]
    · simp [UnmarshalJSON_of_resolved env d bytes h1 h2]
    · simp [UnmarshalJSON_of_resolve_error env d bytes h1 h2]
  · simp [UnmarshalJSON_of_first_error env d bytes h1]

/-- C6, amended: a call of `UnmarshalJSON` hands the document to the codec
exactly twice, first with the zero discriminator as target and then with the
resolved variant as target, when the first pass and `GetType` both succeed;
in every other case it hands it to the codec exactly once, with the zero
discriminator as target. -/
theorem c6_codec_passes {Bytes DiscT ValueT Err : Type}
    (env : Env Bytes DiscT ValueT Err) (d : Discriminated ValueT) (bytes : Bytes) :
    (∀ disc v, env.unmarshalD bytes env.zero = (disc, none) →
        env.getType disc = some (v, none) →
        (UnmarshalJSON env d bytes).codecPasses = 2
          ∧ (UnmarshalJSON env d bytes).calls.filter Call.isCodecPass =
              [.unmarshalDiscriminator bytes env.zero, .unmarshalValue bytes v])
    ∧ (¬ ((env.unmarshalD bytes env.zero).2 = none
            ∧ ∃ v, env.getType (env.unmarshalD bytes env.zero).1 = some (v, none)) →
        (UnmarshalJSON env d bytes).codecPasses = 1
          ∧ (UnmarshalJSON env d bytes).calls.filter Call.isCodecPass =
              [.unmarshalDiscriminator bytes env.zero]) := by
  constructor
  · intro disc v h1 h2
    simp [UnmarshalJSON_of_resolved env d bytes h1 h2, Run.codecPasses, Call.isCodecPass]
  · intro hn
    rcases h1 : env.unmarshalD bytes env.zero with ⟨disc, _ | e1⟩
    · rcases h2 : env.getType disc with _ | ⟨v, _ | e2⟩
      · simp [UnmarshalJSON_of_panic env d bytes h1 h2, Run.codecPasses, Call.isCodecPass]
      · exact absurd ⟨by rw [h1], v, by rw [h1]; exact h2⟩ hn
      · simp [UnmarshalJSON_of_resolve_error env d bytes h1 h2, Run.codecPasses,
          Call.isCodecPass]
    · simp [UnmarshalJSON_of_first_error env d bytes h1, Run.codecPasses, Call.isCodecPass]

/-- C7: when `UnmarshalJSON` succeeds on a document, the resulting `Value` does
not depend on what the wrapper held before the call: from any other wrapper
state the call succeeds too and gives the same `Value`; in particular decoding
the document into a wrapper populated from any other document gives the same
`Value`, and decoding the document a second time gives the same `Value` as
decoding it once. -/
theorem c7_redecoding_overwrites {Bytes DiscT ValueT Err : Type}
    (env : Env Bytes DiscT ValueT Err) (d : Discriminated ValueT) (bytes : Bytes)
    (h : (UnmarshalJSON env d bytes).completion = .returned none) :
    (∀ d0 : Discriminated ValueT,
        (UnmarshalJSON env d0 bytes).completion = .returned none
          ∧ (UnmarshalJSON env d0 bytes).d.Value = (UnmarshalJSON env d bytes).d.Value)
    ∧ (∀ (d0 : Discriminated ValueT) (bytes1 : Bytes),
        (UnmarshalJSON env (UnmarshalJSON env d0 bytes1).d bytes).d.Value
          = (UnmarshalJSON env d bytes).d.Value)
    ∧ (UnmarshalJSON env (UnmarshalJSON env d bytes).d bytes).d.Value
          = (UnmarshalJSON env d bytes).d.Value := by
  obtain ⟨disc, v, h1, h2, h3⟩ := resolved_of_returned_nil env d bytes h
  have key : ∀ d0 : Discriminated ValueT,
      (UnmarshalJSON env d0 bytes).completion = .returned none
        ∧ (UnmarshalJSON env d0 bytes).d.Value = (UnmarshalJSON env d bytes).d.Value := by
    intro d0
    rw [UnmarshalJSON_of_resolved env d0 bytes h1 h2,
      UnmarshalJSON_of_resolved env d bytes h1 h2]
    simp [h3]
  exact ⟨key, fun d0 bytes1 => (key _).2, (key _).2⟩

/-- C9: when the first codec pass succeeds and `GetType` returns `(v, err)` with
`err` non-nil, then whatever the wrapper held before, `UnmarshalJSON` returns
`err`, the wrapper's `Value` is `v`, and the second codec pass is not made:
the calls are the first pass and `GetType` only. -/
theorem c9_value_overwritten_on_resolve_error {Bytes DiscT ValueT Err : Type}
    (env : Env Bytes DiscT ValueT Err) (d : Discriminated ValueT) (bytes : Bytes)
    (disc : DiscT) (v : ValueT) (err : Err)
    (h1 : env.unmarshalD bytes env.zero = (disc, none))
    (h2 : env.getType disc = some (v, some err)) :
    (UnmarshalJSON env d bytes).d.Value = v
      ∧ (UnmarshalJSON env d bytes).completion = .returned (some err)
      ∧ (UnmarshalJSON env d bytes).calls =
          [.unmarshalDiscriminator bytes env.zero, .getType disc]
      ∧ ∀ b t, Call.unmarshalValue b t ∉ (UnmarshalJSON env d bytes).calls := by
  simp [UnmarshalJSON_of_resolve_error env d bytes h1 h2]

/-- C10: when the first codec pass returns an error, `UnmarshalJSON` returns
that error, leaves the wrapper exactly as it was before the call, and does not
call `GetType`: the first pass is the only call made. -/
theorem c10_first_pass_failure_atomic {Bytes DiscT ValueT Err : Type}
    (env : Env Bytes DiscT ValueT Err) (d : Discriminated ValueT) (bytes : Bytes)
    (err : Err) (h1 : (env.unmarshalD bytes env.zero).2 = some err) :
    (UnmarshalJSON env d bytes).d = d
      ∧ (UnmarshalJSON env d bytes).completion = .returned (some err)
      ∧ (UnmarshalJSON env d bytes).calls = [.unmarshalDiscriminator bytes env.zero]
      ∧ ∀ r, Call.getType r ∉ (UnmarshalJSON env d bytes).calls := by
  have h : env.unmarshalD bytes env.zero = ((env.unmarshalD bytes env.zero).1, some err) :=
    Prod.ext rfl h1
  simp [UnmarshalJSON_of_first_error env d bytes h]

/-! ## `UnmarshalJSON` on the shape family -/

/-- C1, as stated, fails for a discriminator whose `GetType` returns
`(nil, nil)`, at the document `{"shape":"square","side":10}`: both codec passes
and `GetType` succeed and `UnmarshalJSON` returns nil, but `Value` is not the
value resolution returned filled in place: the codec put a value of its own
making (a `map[string]any`) in the wrapper, of another dynamic type than the
value resolution returned. -/
theorem c1_counterexample :
    unmarshalShapeDiscriminator
        (.valid (.obj [("shape", .str "square"), ("side", .num (.int 10))])) none
        = (some ⟨"square"⟩, none)
      ∧ GetTypeNil (some ⟨"square"⟩) = some (.nil, none)
      ∧ unmarshalAny (.valid (.obj [("shape", .str "square"), ("side", .num (.int 10))])) .nil
        = (.decoded (.obj [("shape", .str "square"), ("side", .num (.int 10))]), none)
      ∧ (UnmarshalJSON nilEnv freshShape
          (.valid (.obj [("shape", .str "square"), ("side", .num (.int 10))]))).completion
        = .returned none
      ∧ (UnmarshalJSON nilEnv freshShape
          (.valid (.obj [("shape", .str "square"), ("side", .num (.int 10))]))).d.Value
        = .decoded (.obj [("shape", .str "square"), ("side", .num (.int 10))])
      ∧ (UnmarshalJSON nilEnv freshShape
          (.valid (.obj [("shape", .str "square"), ("side", .num (.int 10))]))).d.Value.dynamicType
        = .untyped
      ∧ (UnmarshalJSON nilEnv freshShape
          (.valid (.obj [("shape", .str "square"), ("side", .num (.int 10))]))).d.Value.dynamicType
        ≠ GoAny.nil.dynamicType := by
  refine ⟨rfl, rfl, rfl, rfl, rfl, rfl, ?_⟩
  show GoType.untyped ≠ GoType.none
  decide

/-- C1, amended: the success path. For every codec, discriminator and document:
if the first codec pass decodes the document into `disc` without error,
`GetType` returns `(v0, nil)` and the second codec pass of the same document
into the wrapper's `Value` holding `v0` succeeds yielding `v`, then
`UnmarshalJSON` returns nil, the wrapper's `Value` is `v`, and the second pass
was given the same document and `v0` as target. For the shape family, where
resolution returns a non-nil `*square` or `*circle`, `v` is moreover of the
dynamic type of `v0`: the codec fills what resolution returned and puts no
value of its own in its place. -/
theorem c1_success_path :
    (∀ {Bytes DiscT ValueT Err : Type} (env : Env Bytes DiscT ValueT Err)
        (d : Discriminated ValueT) (bytes : Bytes) (disc : DiscT) (v0 v : ValueT),
        env.unmarshalD bytes env.zero = (disc, none) →
        env.getType disc = some (v0, none) →
        env.unmarshalV bytes v0 = (v, none) →
        (UnmarshalJSON env d bytes).completion = .returned none
          ∧ (UnmarshalJSON env d bytes).d.Value = v
          ∧ (UnmarshalJSON env d bytes).calls =
              [.unmarshalDiscriminator bytes env.zero, .getType disc,
                .unmarshalValue bytes v0])
    ∧ (∀ (d : Discriminated GoAny) (doc : Document) (disc : Option ShapeDiscriminator)
        (v0 v : GoAny),
        unmarshalShapeDiscriminator doc none = (disc, none) →
        GetType disc = some (v0, none) →
        unmarshalAny doc v0 = (v, none) →
        (decodeShape d doc).completion = .returned none
          ∧ (decodeShape d doc).d.Value = v
          ∧ v.dynamicType = v0.dynamicType
          ∧ (v0.dynamicType = .ptrSquare ∨ v0.dynamicType = .ptrCircle)) := by
  constructor
  · intro Bytes DiscT ValueT Err env d bytes disc v0 v h1 h2 h3
    simp [UnmarshalJSON_of_resolved env d bytes h1 h2, h3]
  · intro d doc disc v0 v h1 h2 h3
    have hrun : decodeShape d doc = _ := UnmarshalJSON_of_resolved shapeEnv d doc h1 h2
    obtain ⟨sd, rfl, hv0⟩ := GetType_resolved h2
    obtain ⟨members, rfl⟩ := object_of_first_pass h1
    have ht := unmarshalAny_object_dynamicType members v0 hv0
    have h3a : shapeEnv.unmarshalV (.valid (.obj members)) v0 = (v, none) := h3
    rw [h3] at ht
    refine ⟨by rw [hrun, h3a], by rw [hrun, h3a], ht, ?_⟩
    rcases hv0 with rfl | rfl
    · left; rfl
    · right; rfl

/-- C1, amended, at the test input `{"shape":"square","side":10}`. -/
theorem c1_success_path_witness :
    (decodeShape freshShape
        (.valid (.obj [("shape", .str "square"), ("side", .num (.int 10))]))).completion
        = .returned none
      ∧ (decodeShape freshShape
          (.valid (.obj [("shape", .str "square"), ("side", .num (.int 10))]))).d.Value
        = .ptrSquare ⟨10⟩
      ∧ (GoAny.ptrSquare ⟨10⟩).dynamicType = (GoAny.ptrSquare ⟨0⟩).dynamicType
      ∧ ((GoAny.ptrSquare ⟨0⟩).dynamicType = .ptrSquare
          ∨ (GoAny.ptrSquare ⟨0⟩).dynamicType = .ptrCircle) :=
  c1_success_path.2 freshShape
    (.valid (.obj [("shape", .str "square"), ("side", .num (.int 10))]))
    (some ⟨"square"⟩) (.ptrSquare ⟨0⟩) (.ptrSquare ⟨10⟩) rfl rfl rfl

/-- C2, as stated, fails at `n = 2^63`: decoding
`{"shape":"square","side":9223372036854775808}` returns a type error and leaves
`&square{0}`. -/
theorem c2_counterexample :
    (decodeShape freshShape
        (.valid (.obj [("shape", .str "square"),
          ("side", .num (.int 9223372036854775808))]))).completion
        = .returned (some (.UnmarshalTypeError "side"))
      ∧ (decodeShape freshShape
          (.valid (.obj [("shape", .str "square"),
            ("side", .num (.int 9223372036854775808))]))).d.Value
        = .ptrSquare ⟨0⟩ := by
  constructor <;> rfl

/-- C2, amended: for every integer `n` that is a value of Go's `int`, decoding
`{"shape":"square","side":n}` returns nil and yields `&square{n}`, and decoding
`{"shape":"circle","radius":n}` returns nil and yields `&circle{n}`; a document
holding only the tag yields `&square{}`, respectively `&circle{}`. -/
theorem c2_round_trip (d : Discriminated GoAny) (n : Int) (hn : fitsInt n) :
    ((decodeShape d (.valid (.obj [("shape", .str "square"), ("side", .num (.int n))]))).completion
        = .returned none
      ∧ (decodeShape d (.valid (.obj [("shape", .str "square"), ("side", .num (.int n))]))).d.Value
        = .ptrSquare ⟨n⟩)
    ∧ ((decodeShape d (.valid (.obj [("shape", .str "circle"), ("radius", .num (.int n))]))).completion
        = .returned none
      ∧ (decodeShape d (.valid (.obj [("shape", .str "circle"), ("radius", .num (.int n))]))).d.Value
        = .ptrCircle ⟨n⟩)
    ∧ ((decodeShape d (.valid (.obj [("shape", .str "square")]))).completion = .returned none
      ∧ (decodeShape d (.valid (.obj [("shape", .str "square")]))).d.Value = .ptrSquare ⟨0⟩)
    ∧ ((decodeShape d (.valid (.obj [("shape", .str "circle")]))).completion = .returned none
      ∧ (decodeShape d (.valid (.obj [("shape", .str "circle")]))).d.Value = .ptrCircle ⟨0⟩) := by
  simp [decodeShape, UnmarshalJSON, shapeEnv, unmarshalShapeDiscriminator, object,
    matchesField, foldName, foldRune, storeString, GetType, unmarshalAny, storeInt, hn]

/-- C2, amended, at the test inputs with `n = 10`. -/
theorem c2_round_trip_witness :
    fitsInt 10
    ∧ (decodeShape freshShape
        (.valid (.obj [("shape", .str "square"), ("side", .num (.int 10))]))).d.Value
        = .ptrSquare ⟨10⟩
    ∧ (decodeShape freshShape
        (.valid (.obj [("shape", .str "circle"), ("radius", .num (.int 10))]))).d.Value
        = .ptrCircle ⟨10⟩ :=
  ⟨by decide, (c2_round_trip freshShape 10 (by decide)).1.2,
    (c2_round_trip freshShape 10 (by decide)).2.1.2⟩

/-- C3: for every known tag `T` and every object document whose tag is `T`,
decoding the document and decoding it with the fields of the other variants
removed end the same way and yield the same `Value`. -/
theorem c3_sibling_fields_never_leak (d : Discriminated GoAny) (T : String)
    (members : List (String × JSON)) (hT : T = "square" ∨ T = "circle")
    (h : hasTag T members) :
    (decodeShape d (.valid (.obj members))).d.Value
        = (decodeShape d (.valid (.obj (removeOtherVariants T members)))).d.Value
      ∧ (decodeShape d (.valid (.obj members))).completion
        = (decodeShape d (.valid (.obj (removeOtherVariants T members)))).completion := by
  have hshape : ∀ k, belongsToOtherVariant T k = true → matchesField k "shape" = false := by
    intro k hk
    unfold belongsToOtherVariant at hk
    rcases hT with rfl | rfl
    · exact @matchesField_exclusive k "radius" "shape" (by decide) (by simpa using hk)
    · exact @matchesField_exclusive k "side" "shape" (by decide) (by simpa using hk)
  have h1 := object_shape_of_hasTag T members h ""
  have h1r : object "shape" storeString (removeOtherVariants T members) ("", none)
      = (T, none) := by
    unfold removeOtherVariants
    rw [object_filter_skipped "shape" storeString _ hshape]
    exact h1
  rcases hT with rfl | rfl
  · have hown : ∀ k, belongsToOtherVariant "square" k = true → matchesField k "side" = false := by
      intro k hk
      exact @matchesField_exclusive k "radius" "side" (by decide)
        (by simpa [belongsToOtherVariant] using hk)
    have h2 : object "side" storeInt (removeOtherVariants "square" members) (0, none)
        = object "side" storeInt members (0, none) := by
      unfold removeOtherVariants
      exact object_filter_skipped "side" storeInt _ hown members _
    simp [decodeShape, UnmarshalJSON, shapeEnv, unmarshalShapeDiscriminator, h1, h1r, GetType,
      unmarshalAny, h2]
  · have hown : ∀ k, belongsToOtherVariant "circle" k = true → matchesField k "radius" = false := by
      intro k hk
      exact @matchesField_exclusive k "side" "radius" (by decide)
        (by simpa [belongsToOtherVariant] using hk)
    have h2 : object "radius" storeInt (removeOtherVariants "circle" members) (0, none)
        = object "radius" storeInt members (0, none) := by
      unfold removeOtherVariants
      exact object_filter_skipped "radius" storeInt _ hown members _
    simp [decodeShape, UnmarshalJSON, shapeEnv, unmarshalShapeDiscriminator, h1, h1r, GetType,
      unmarshalAny, h2]

/-- C3, at the test input `{"shape":"circle","side":11,"radius":20}`: it yields
`&circle{20}`, as `{"shape":"circle","radius":20}` does. -/
theorem c3_sibling_fields_never_leak_witness :
    hasTag "circle"
        [("shape", .str "circle"), ("side", .num (.int 11)), ("radius", .num (.int 20))]
    ∧ removeOtherVariants "circle"
        [("shape", .str "circle"), ("side", .num (.int 11)), ("radius", .num (.int 20))]
        = [("shape", .str "circle"), ("radius", .num (.int 20))]
    ∧ (decodeShape freshShape (.valid (.obj
        [("shape", .str "circle"), ("side", .num (.int 11)), ("radius", .num (.int 20))]))).d.Value
        = .ptrCircle ⟨20⟩
    ∧ (decodeShape freshShape (.valid (.obj
        [("shape", .str "circle"), ("side", .num (.int 11)), ("radius", .num (.int 20))]))).d.Value
        = (decodeShape freshShape (.valid (.obj (removeOtherVariants "circle"
            [("shape", .str "circle"), ("side", .num (.int 11)),
              ("radius", .num (.int 20))])))).d.Value := by
  have ht : hasTag "circle"
      [("shape", .str "circle"), ("side", .num (.int 11)), ("radius", .num (.int 20))] := by
    constructor
    · exact ⟨("shape", .str "circle"), by simp, by decide⟩
    · intro m hm ht
      simp only [List.mem_cons, List.mem_singleton, List.not_mem_nil, or_false] at hm
      rcases hm with rfl | rfl | rfl
      · rfl
      · exact absurd ht (by decide)
      · exact absurd ht (by decide)
  exact ⟨ht, rfl, rfl,
    (c3_sibling_fields_never_leak freshShape "circle" _ (Or.inr rfl) ht).1⟩

/-- C4, as stated, fails at `{"SHAPE":"circle"}`: the object has no member
with the key `shape`, yet decoding returns nil and yields `&circle{}`, because
the codec matches keys to fields ignoring case. -/
theorem c4_counterexample :
    (∀ m ∈ [("SHAPE", JSON.str "circle")], m.1 ≠ "shape")
      ∧ (decodeShape freshShape (.valid (.obj [("SHAPE", .str "circle")]))).completion
        = .returned none
      ∧ (decodeShape freshShape (.valid (.obj [("SHAPE", .str "circle")]))).d.Value
        = .ptrCircle ⟨0⟩ := by
  refine ⟨?_, rfl, rfl⟩
  intro m hm
  rw [List.mem_singleton] at hm
  subst hm
  decide

/-- C4, amended: for every object document in which the tag field, as the codec
matches keys (exactly or ignoring case), is absent or holds only strings other
than `square` and `circle`, and whatever the wrapper held before, decoding
returns `UnknownDiscriminatorError`, calls the codec once and leaves the
wrapper's `Value` nil; a missing tag and an unknown tag end the same way. -/
theorem c4_unknown_or_missing_tag (d : Discriminated GoAny)
    (members : List (String × JSON)) (h : tagAbsentOrUnknown members) :
    (decodeShape d (.valid (.obj members))).completion
        = .returned (some .UnknownDiscriminatorError)
      ∧ (decodeShape d (.valid (.obj members))).d.Value = .nil
      ∧ (decodeShape d (.valid (.obj members))).codecPasses = 1 := by
  obtain ⟨s, hs, h1, h2⟩ :=
    object_shape_of_tagAbsentOrUnknown members h "" ⟨by decide, by decide⟩
  simp [decodeShape, UnmarshalJSON, shapeEnv, unmarshalShapeDiscriminator, hs, GetType, h1, h2,
    Run.codecPasses, Call.isCodecPass]

/-- C4, amended, at the test inputs `{"shape":"sqare","side":11,"radius":20}`
and `{"shpe":"square"}`. -/
theorem c4_unknown_or_missing_tag_witness :
    ((decodeShape freshShape (.valid (.obj
        [("shape", .str "sqare"), ("side", .num (.int 11)),
          ("radius", .num (.int 20))]))).completion
        = .returned (some .UnknownDiscriminatorError)
      ∧ (decodeShape freshShape (.valid (.obj
        [("shape", .str "sqare"), ("side", .num (.int 11)),
          ("radius", .num (.int 20))]))).d.Value = .nil)
    ∧ ((decodeShape freshShape (.valid (.obj [("shpe", .str "square")]))).completion
        = .returned (some .UnknownDiscriminatorError)
      ∧ (decodeShape freshShape (.valid (.obj [("shpe", .str "square")]))).d.Value = .nil) := by
  have t1 : tagAbsentOrUnknown
      [("shape", .str "sqare"), ("side", .num (.int 11)), ("radius", .num (.int 20))] := by
    intro m hm ht
    simp only [List.mem_cons, List.mem_singleton, List.not_mem_nil, or_false] at hm
    rcases hm with rfl | rfl | rfl
    · exact ⟨"sqare", rfl, by decide, by decide⟩
    · exact absurd ht (by decide)
    · exact absurd ht (by decide)
  have t2 : tagAbsentOrUnknown [("shpe", .str "square")] := by
    intro m hm ht
    rw [List.mem_singleton] at hm
    subst hm
    exact absurd ht (by decide)
  exact ⟨⟨(c4_unknown_or_missing_tag freshShape _ t1).1,
      (c4_unknown_or_missing_tag freshShape _ t1).2.1⟩,
    ⟨(c4_unknown_or_missing_tag freshShape _ t2).1,
      (c4_unknown_or_missing_tag freshShape _ t2).2.1⟩⟩

/-- C5, at the test input `{"shpe":"square"}`: the error returned is the one
`GetType` returned, and the second pass is not made. -/
theorem c5_errors_surfaced_verbatim_witness :
    (decodeShape freshShape (.valid (.obj [("shpe", .str "square")]))).completion
        = .returned (some .UnknownDiscriminatorError)
      ∧ (decodeShape freshShape (.valid (.obj [("shpe", .str "square")]))).calls
        = [.unmarshalDiscriminator (.valid (.obj [("shpe", .str "square")])) none,
            .getType (some ⟨""⟩)] :=
  ⟨((c5_errors_surfaced_verbatim shapeEnv freshShape
        (.valid (.obj [("shpe", .str "square")]))).1 .UnknownDiscriminatorError).mpr
      (Or.inr (Or.inl ⟨rfl, .nil, rfl⟩)),
    (c5_errors_surfaced_verbatim shapeEnv freshShape
        (.valid (.obj [("shpe", .str "square")]))).2.2.1 rfl .nil .UnknownDiscriminatorError rfl⟩

/-- C6, as stated, fails at the test input `{"shpe":"square"}` and at bytes
that are not JSON: the codec is called once, not twice. -/
theorem c6_counterexample :
    (decodeShape freshShape (.valid (.obj [("shpe", .str "square")]))).codecPasses = 1
      ∧ (decodeShape freshShape .invalid).codecPasses = 1
      ∧ (decodeShape freshShape (.valid (.obj [("shpe", .str "square")]))).codecPasses ≠ 2 := by
  refine ⟨rfl, rfl, ?_⟩
  show (1 : Nat) ≠ 2
  decide

/-- C6, amended, at the test inputs `{"shape":"circle","radius":5}` (two
passes) and `{"shpe":"square"}` (one pass). -/
theorem c6_codec_passes_witness :
    (decodeShape freshShape
        (.valid (.obj [("shape", .str "circle"), ("radius", .num (.int 5))]))).codecPasses = 2
      ∧ (decodeShape freshShape (.valid (.obj [("shpe", .str "square")]))).codecPasses = 1 :=
  ⟨((c6_codec_passes shapeEnv freshShape
        (.valid (.obj [("shape", .str "circle"), ("radius", .num (.int 5))]))).1
        (some ⟨"circle"⟩) (.ptrCircle ⟨0⟩) rfl rfl).1,
    ((c6_codec_passes shapeEnv freshShape (.valid (.obj [("shpe", .str "square")]))).2
        (by
          rintro ⟨_, v, hv⟩
          have hv1 : GetType (some ⟨""⟩) = some (v, none) := hv
          simp [GetType] at hv1)).1⟩

/-- C7, at the test inputs: decoding `{"shape":"circle","radius":5}` into a
wrapper populated from `{"shape":"square","side":10}` yields `&circle{5}`, as
decoding it into a fresh wrapper does. -/
theorem c7_redecoding_overwrites_witness :
    (decodeShape freshShape
        (.valid (.obj [("shape", .str "circle"), ("radius", .num (.int 5))]))).completion
        = .returned none
      ∧ (decodeShape
          (decodeShape freshShape
            (.valid (.obj [("shape", .str "square"), ("side", .num (.int 10))]))).d
          (.valid (.obj [("shape", .str "circle"), ("radius", .num (.int 5))]))).d.Value
        = (decodeShape freshShape
            (.valid (.obj [("shape", .str "circle"), ("radius", .num (.int 5))]))).d.Value :=
  ⟨rfl, (c7_redecoding_overwrites shapeEnv freshShape
      (.valid (.obj [("shape", .str "circle"), ("radius", .num (.int 5))])) rfl).2.1
      freshShape (.valid (.obj [("shape", .str "square"), ("side", .num (.int 10))]))⟩

/-- C8 fails at the document `null` (failing input): the first codec pass
reports success and leaves the discriminator nil, `GetType` is called on the
nil discriminator, and `UnmarshalJSON` panics instead of returning. -/
theorem c8_null_document_panics :
    unmarshalShapeDiscriminator (.valid .null) none = (none, none)
      ∧ GetType none = none
      ∧ (decodeShape freshShape (.valid .null)).completion = .panicked
      ∧ (decodeShape freshShape (.valid .null)).calls
        = [.unmarshalDiscriminator (.valid .null) none, .getType none] :=
  ⟨rfl, rfl, rfl, rfl⟩

/-- C9, on a wrapper populated from `{"shape":"square","side":10}`: decoding
`{"shape":"sqare"}` leaves `Value` nil, the value `GetType` returned with the
error. -/
theorem c9_value_overwritten_on_resolve_error_witness :
    (decodeShape freshShape
        (.valid (.obj [("shape", .str "square"), ("side", .num (.int 10))]))).d.Value
        = .ptrSquare ⟨10⟩
      ∧ (decodeShape
          (decodeShape freshShape
            (.valid (.obj [("shape", .str "square"), ("side", .num (.int 10))]))).d
          (.valid (.obj [("shape", .str "sqare")]))).d.Value = .nil :=
  ⟨rfl, (c9_value_overwritten_on_resolve_error shapeEnv
      (decodeShape freshShape
        (.valid (.obj [("shape", .str "square"), ("side", .num (.int 10))]))).d
      (.valid (.obj [("shape", .str "sqare")])) (some ⟨"sqare"⟩) .nil
      .UnknownDiscriminatorError rfl rfl).1⟩

/-- C10, on a wrapper populated from `{"shape":"square","side":10}`: decoding
`{"shape":5}`, whose first pass fails with a type error, leaves `&square{10}`. -/
theorem c10_first_pass_failure_atomic_witness :
    (unmarshalShapeDiscriminator (.valid (.obj [("shape", .num (.int 5))])) none).2
        = some (.UnmarshalTypeError "shape")
      ∧ (decodeShape (Discriminated.mk (.ptrSquare ⟨10⟩))
          (.valid (.obj [("shape", .num (.int 5))]))).d = ⟨.ptrSquare ⟨10⟩⟩ :=
  ⟨rfl, (c10_first_pass_failure_atomic shapeEnv (Discriminated.mk (.ptrSquare ⟨10⟩))
      (.valid (.obj [("shape", .num (.int 5))])) (.UnmarshalTypeError "shape") rfl).1⟩

end Taggo
